import Mathlib

/-!
Verification development for a single-page chat client
(`src/components/ChatInterface.tsx`).

The component's logic is embedded shallowly:

* JavaScript numbers are modelled by `JSNum`: `nan`, the two infinities,
  or a finite value carried as a rational.  IEEE comparison semantics
  (every comparison with NaN is false) are reproduced in `jsLt`.
* `null` / unset fields are `Option`.
* The `Number(string)` builtin is embedded by `jsToNumber`, covering the
  decimal forms the component's `<input type="number">` fields can
  produce (optional sign, digits, fraction, exponent, `Infinity`;
  hexadecimal literal forms are not modelled).
* The React component state (`messages`, `inputValue`, `params`,
  `chatMutation.isPending`) becomes `ChatState`; each UI or network
  callback becomes an `Event`, and `step` is the induced transition
  function.  `Date` values are milliseconds as `Nat`.
-/

/-- Model of a JavaScript number: NaN, an infinity (`inf true` is `+∞`),
or a finite value represented exactly as a rational. -/
inductive JSNum where
  | nan : JSNum
  | inf : Bool → JSNum
  | num : ℚ → JSNum
deriving DecidableEq

/-- Embeds `Number.isNaN`. -/
def jsIsNaN : JSNum → Bool
  | .nan => true
  | _ => false

/-- Embeds the JavaScript `<` comparison (IEEE semantics: any comparison
involving NaN is false). -/
def jsLt : JSNum → JSNum → Bool
  | .nan, _ => false
  | _, .nan => false
  | .inf a, .inf b => !a && b
  | .inf a, .num _ => !a
  | .num _, .inf b => b
  | .num a, .num b => decide (a < b)

/-- Embeds `Number.isInteger`: finite and with an integral value. -/
def jsIsInteger : JSNum → Bool
  | .num q => q.den == 1
  | _ => false

/-- Embeds `Math.trunc`: truncation toward zero; NaN and the infinities
are returned unchanged. -/
def jsTrunc : JSNum → JSNum
  | .nan => .nan
  | .inf b => .inf b
  | .num q => .num (if 0 ≤ q then ((⌊q⌋ : ℤ) : ℚ) else ((⌈q⌉ : ℤ) : ℚ))

/-- JavaScript whitespace characters recognised by `String.prototype.trim`
and by `Number()` (the common ASCII ones). -/
def isJsWs (c : Char) : Bool :=
  c = ' ' || c = '\t' || c = '\n' || c = '\r' || c = '\x0b' || c = '\x0c'

/-- Embeds `String.prototype.trim`. -/
def jsTrim (s : String) : String :=
  String.mk (((s.data.dropWhile isJsWs).reverse.dropWhile isJsWs).reverse)

/-- Numeric value of a decimal digit character (0 for non-digits; only
ever applied to digits). -/
def digVal (c : Char) : Nat :=
  match c with
  | '0' => 0 | '1' => 1 | '2' => 2 | '3' => 3 | '4' => 4
  | '5' => 5 | '6' => 6 | '7' => 7 | '8' => 8 | '9' => 9
  | _ => 0

/-- Reads the maximal digit prefix of a character list; returns its value,
its length, and the rest of the list. -/
def readDigits : List Char → Nat × Nat × List Char
  | [] => (0, 0, [])
  | c :: cs =>
    if c.isDigit then
      match readDigits cs with
      | (v, k, r) => (digVal c * 10 ^ k + v, k + 1, r)
    else (0, 0, c :: cs)

/-- Reads an optional leading sign. -/
def readSign : List Char → Int × List Char
  | '+' :: t => (1, t)
  | '-' :: t => (-1, t)
  | t => (1, t)

/-- Value of a parsed decimal literal: sign, mantissa digits read as the
natural number `m` with `fk` of them after the point, decimal exponent
`e`.  The rational is assembled by a single `mkRat` so that concrete
inputs evaluate by kernel reduction. -/
def decValue (sgn : Int) (m fk : Nat) (e : Int) : ℚ :=
  mkRat (sgn * (m : Int) * 10 ^ e.toNat) (10 ^ fk * 10 ^ (-e).toNat)

/-- Reads an optional exponent part after a decimal mantissa; any other
trailing characters make the whole literal invalid (`none`). -/
def readExpPart (sgn : Int) (m fk : Nat) : List Char → Option ℚ
  | [] => some (decValue sgn m fk 0)
  | c :: r =>
    if c = 'e' || c = 'E' then
      match readDigits (readSign r).2 with
      | (e, k, r3) =>
        if k = 0 || !r3.isEmpty then none
        else some (decValue sgn m fk ((readSign r).1 * (e : Int)))
    else none

/-- Reads an unsigned decimal literal (digits, optional fraction,
optional exponent), applying the already-read sign `sgn`. -/
def readDec (sgn : Int) (l : List Char) : Option ℚ :=
  match readDigits l with
  | (ip, ik, r1) =>
    match r1 with
    | '.' :: r2 =>
      match readDigits r2 with
      | (fp, fk, r3) =>
        if ik = 0 && fk = 0 then none
        else readExpPart sgn (ip * 10 ^ fk + fp) fk r3
    | _ => if ik = 0 then none else readExpPart sgn ip 0 r1

/-- Embeds the `Number(string)` builtin on the decimal forms relevant to
the component: trimmed empty string is 0, signed `Infinity`, signed
decimal literals; anything else is NaN. -/
def jsToNumber (s : String) : JSNum :=
  match (jsTrim s).data with
  | [] => JSNum.num 0
  | l =>
    match readSign l with
    | (sgn, l2) =>
      if l2 = "Infinity".data then JSNum.inf (decide (0 < sgn))
      else
        match readDec sgn l2 with
        | some q => JSNum.num q
        | none => JSNum.nan

/-- Embeds the TypeScript `Params` interface.  `reasoning_effort` is a
`String` because TypeScript union types are erased at runtime and the
validator checks membership in the allowed list dynamically. -/
structure Params where
  temperature : JSNum
  top_p : Option JSNum
  top_k : Option JSNum
  reasoning_effort : String
deriving DecidableEq

/-- The temperature range-violation message. -/
def tempMsg : String := "Temperature debe estar entre 0 y 2."

/-- The top-p range-violation message. -/
def topPMsg : String := "Top-p debe estar entre 0 y 1."

/-- The top-k range/integrality-violation message. -/
def topKMsg : String := "Top-k debe ser un entero entre 0 y 20."

/-- The top-p/top-k mutual-exclusion violation message. -/
def bothMsg : String := "Solo se permite enviar top-p o top-k, no ambos."

/-- The reasoning-effort invalid-enum violation message. -/
def effortMsg : String := "Reasoning effort inválido."

/-- Embeds `validateParams`: sequentially pushes one message per violated
rule into an accumulator, in source order. -/
def validateParams (p : Params) : List String :=
  let errs : List String := []
  let errs :=
    if jsIsNaN p.temperature || jsLt p.temperature (.num 0) || jsLt (.num 2) p.temperature
    then errs ++ [tempMsg] else errs
  let errs :=
    match p.top_p with
    | some v =>
      if jsIsNaN v || jsLt v (.num 0) || jsLt (.num 1) v then errs ++ [topPMsg] else errs
    | none => errs
  let errs :=
    match p.top_k with
    | some v =>
      if jsIsNaN v || jsLt v (.num 0) || jsLt (.num 20) v || !jsIsInteger v
      then errs ++ [topKMsg] else errs
    | none => errs
  let errs := if p.top_p.isSome && p.top_k.isSome then errs ++ [bothMsg] else errs
  let errs :=
    if !(["high", "medium", "low", "minimal"].contains p.reasoning_effort)
    then errs ++ [effortMsg] else errs
  errs

/-- Decimal digit character for `d` written as `0`–`9` (callers always
pass a value below 10). -/
def digitChar10 (d : Nat) : Char :=
  match d with
  | 0 => '0' | 1 => '1' | 2 => '2' | 3 => '3' | 4 => '4'
  | 5 => '5' | 6 => '6' | 7 => '7' | 8 => '8' | _ => '9'

/-- Little-endian decimal digits of `n`, with explicit fuel so that the
recursion is structural and concrete values reduce in the kernel. -/
def natDigitsRevAux : Nat → Nat → List Char
  | _, 0 => []
  | 0, _ + 1 => []
  | fuel + 1, n + 1 => digitChar10 ((n + 1) % 10) :: natDigitsRevAux fuel ((n + 1) / 10)

/-- Little-endian decimal digits of `n` (empty for 0). -/
def natDigitsRev (n : Nat) : List Char := natDigitsRevAux n n

/-- Embeds `Number.prototype.toString` for the non-negative integer
millisecond values produced by `Date.now()`: the usual decimal
rendering. -/
def jsNatToString (n : Nat) : String :=
  if n = 0 then "0" else String.mk (natDigitsRev n).reverse

/-- Embeds the TypeScript `Message` interface.  `timestamp` is the
`Date` value as integer milliseconds. -/
structure Message where
  id : String
  content : String
  isUser : Bool
  timestamp : Nat
deriving DecidableEq

/-- Embeds the `DEFAULT_PARAMS` constant: temperature 1, top-p active at
1, top-k off, medium reasoning effort. -/
def DEFAULT_PARAMS : Params :=
  { temperature := .num 1
    top_p := some (.num 1)
    top_k := none
    reasoning_effort := "medium" }

/-- The component state held in React hooks: `messages`, `inputValue`,
`params`, and the mutation's `isPending` flag. -/
structure ChatState where
  messages : List Message
  inputValue : String
  params : Params
  isPending : Bool
deriving DecidableEq

/-- The state at mount: empty history, empty draft, default parameters,
no outstanding request. -/
def initState : ChatState :=
  { messages := [], inputValue := "", params := DEFAULT_PARAMS, isPending := false }

/-- Embeds the `setTopP` handler: parses the field text (empty means
unset), stores it in `top_p`, and clears `top_k` exactly when the new
value is non-null. -/
def setTopP (v : String) (p : Params) : Params :=
  let val : Option JSNum := if v = "" then none else some (jsToNumber v)
  { p with top_p := val, top_k := if val.isSome then none else p.top_k }

/-- Embeds the `setTopK` handler: parses the field text (empty means
unset), truncates with `Math.trunc`, stores it in `top_k`, and clears
`top_p` exactly when the new value is non-null. -/
def setTopK (v : String) (p : Params) : Params :=
  let n : Option JSNum := if v = "" then none else some (jsToNumber v)
  let val : Option JSNum := match n with | none => none | some x => some (jsTrunc x)
  { p with top_k := val, top_p := if val.isSome then none else p.top_p }

/-- The payload of the one outbound `fetch`: the draft text and the full
parameter set, as captured by `chatMutation.mutate`. -/
structure OutboundCall where
  text : String
  cfg : Params
deriving DecidableEq

/-- Embeds `handleSubmit`: the guard rejects a blank draft, an
outstanding request, or a non-empty validator output; otherwise it
appends the user message, starts the mutation (one outbound call,
`isPending` set) and clears the draft. -/
def handleSubmit (now : Nat) (s : ChatState) : ChatState × Option OutboundCall :=
  if jsTrim s.inputValue == "" || s.isPending || !(validateParams s.params).isEmpty
  then (s, none)
  else
    ({ messages := s.messages ++
        [{ id := jsNatToString now, content := s.inputValue, isUser := true, timestamp := now }]
       inputValue := ""
       params := s.params
       isPending := true },
     some { text := s.inputValue, cfg := s.params })

/-- Embeds the success-path text extraction in `sendMessage`:
`data.message || data.content || 'Sin respuesta'`, where an absent field
(`none`) and the empty string are both falsy. -/
def sendMessageText (message content : Option String) : String :=
  if message.getD "" == "" then
    if content.getD "" == "" then "Sin respuesta" else content.getD ""
  else message.getD ""

/-- Embeds `chatMutation.onSuccess`: appends the bot message with the
extracted text and settles the mutation. -/
def onSuccess (now : Nat) (text : String) (s : ChatState) : ChatState :=
  { s with
    messages := s.messages ++
      [{ id := jsNatToString now ++ "-bot", content := text, isUser := false, timestamp := now }]
    isPending := false }

/-- Embeds `chatMutation.onError`: appends the formatted error message
(`error?.message ?? 'desconocido'`) and settles the mutation. -/
def onError (now : Nat) (emsg : Option String) (s : ChatState) : ChatState :=
  { s with
    messages := s.messages ++
      [{ id := jsNatToString now ++ "-error"
         content := "❌ Error: " ++ emsg.getD "desconocido"
         isUser := false
         timestamp := now }]
    isPending := false }

/-- Embeds `clearChat`: `setMessages([])`. -/
def clearChat (s : ChatState) : ChatState := { s with messages := [] }

/-- Events a session can receive: the user intents exposed by the view
and the network callbacks.  Each event that creates a message carries
the `Date.now()` value observed when it runs. -/
inductive Event where
  | editDraft : String → Event
  | setTemperature : String → Event
  | editTopP : String → Event
  | editTopK : String → Event
  | setEffort : String → Event
  | submit : Nat → Event
  | respSuccess : Nat → Option String → Option String → Event
  | respError : Nat → Option String → Event
  | clear : Event
deriving DecidableEq

/-- The transition function induced by the component's handlers.  The
network callbacks only fire for an in-flight mutation, so they are
no-ops when `isPending` is false. -/
def step (s : ChatState) : Event → ChatState
  | .editDraft v => { s with inputValue := v }
  | .setTemperature v => { s with params := { s.params with temperature := jsToNumber v } }
  | .editTopP v => { s with params := setTopP v s.params }
  | .editTopK v => { s with params := setTopK v s.params }
  | .setEffort v => { s with params := { s.params with reasoning_effort := v } }
  | .submit now => (handleSubmit now s).1
  | .respSuccess now m c => if s.isPending then onSuccess now (sendMessageText m c) s else s
  | .respError now emsg => if s.isPending then onError now emsg s else s
  | .clear => clearChat s

/-- Runs a list of events from a state. -/
def run (s : ChatState) (evs : List Event) : ChatState := evs.foldl step s

/-- The `Date.now()` value carried by an event, if any. -/
def eventTime : Event → List Nat
  | .submit now => [now]
  | .respSuccess now _ _ => [now]
  | .respError now _ => [now]
  | _ => []

/-- The clock values observed along a trace, in order. -/
def traceTimes : List Event → List Nat
  | [] => []
  | e :: t => eventTime e ++ traceTimes t


/-- Rule 1 condition of the validator, as in the source. -/
def tempBad (p : Params) : Bool :=
  jsIsNaN p.temperature || jsLt p.temperature (.num 0) || jsLt (.num 2) p.temperature

/-- Rule 2 condition of the validator (top-p set and out of range). -/
def topPBad (p : Params) : Bool :=
  match p.top_p with
  | some v => jsIsNaN v || jsLt v (.num 0) || jsLt (.num 1) v
  | none => false

/-- Rule 3 condition of the validator (top-k set and out of range or
non-integral). -/
def topKBad (p : Params) : Bool :=
  match p.top_k with
  | some v => jsIsNaN v || jsLt v (.num 0) || jsLt (.num 20) v || !jsIsInteger v
  | none => false

/-- Rule 4 condition of the validator (both samplers set). -/
def bothBad (p : Params) : Bool :=
  p.top_p.isSome && p.top_k.isSome

/-- Rule 5 condition of the validator (unknown reasoning effort). -/
def effortBad (p : Params) : Bool :=
  !(["high", "medium", "low", "minimal"].contains p.reasoning_effort)

/-- The validator output is exactly the concatenation, in source order,
of one optional singleton per rule: every rule is evaluated on every
input and contributes independently. -/
theorem validateParams_eq (p : Params) : validateParams p =
    (if tempBad p then [tempMsg] else []) ++
    (if topPBad p then [topPMsg] else []) ++
    (if topKBad p then [topKMsg] else []) ++
    (if bothBad p then [bothMsg] else []) ++
    (if effortBad p then [effortMsg] else []) := by
  have push_eq : ∀ (errs : List String) (c : Prop) (_ : Decidable c) (m : String),
      (if c then errs ++ [m] else errs) = errs ++ (if c then [m] else []) := by
    intro errs c hc m; split <;> simp
  have ite_app : ∀ (a b d : List String) (c : Prop) (_ : Decidable c),
      (if c then a ++ b else a ++ d) = a ++ (if c then b else d) := by
    intro a b d c hc; split <;> rfl
  have ite_cons : ∀ (x : String) (b d : List String) (c : Prop) (_ : Decidable c),
      (if c then x :: b else x :: d) = x :: (if c then b else d) := by
    intro x b d c hc; split <;> rfl
  rcases p with ⟨t, tp, tk, eff⟩
  rcases tp with _ | v <;> rcases tk with _ | w <;>
    simp [validateParams, tempBad, topPBad, topKBad, bothBad, effortBad, push_eq, ite_app,
      ite_cons]

/-- Membership of a singleton conditional list. -/
theorem mem_ite_singleton {a b : String} {c : Bool} :
    a ∈ (if c then [b] else []) ↔ (c = true ∧ a = b) := by
  cases c <;> simp

/-- Characterisation of membership in the validator output. -/
theorem mem_validateParams (m : String) (p : Params) : m ∈ validateParams p ↔
    ((tempBad p = true ∧ m = tempMsg) ∨ (topPBad p = true ∧ m = topPMsg) ∨
     (topKBad p = true ∧ m = topKMsg) ∨ (bothBad p = true ∧ m = bothMsg) ∨
     (effortBad p = true ∧ m = effortMsg)) := by
  rw [validateParams_eq]
  simp only [List.mem_append, mem_ite_singleton, or_assoc]

/-- Decodes a little-endian digit list back to the natural number it
renders. -/
def ofDigitsRev : List Char → Nat
  | [] => 0
  | c :: cs => digVal c + 10 * ofDigitsRev cs

/-- Reading back the digit character of `m < 10` recovers `m`. -/
theorem digVal_digitChar10 (m : Nat) (h : m < 10) : digVal (digitChar10 m) = m := by
  interval_cases m <;> rfl

/-- Digit characters are decimal digits. -/
theorem isDigit_digitChar10 (m : Nat) : (digitChar10 m).isDigit = true := by
  unfold digitChar10
  rcases m with _ | _ | _ | _ | _ | _ | _ | _ | _ | m <;> rfl

/-- With enough fuel, decoding inverts the digit rendering. -/
theorem ofDigitsRev_natDigitsRevAux :
    ∀ fuel n, n ≤ fuel → ofDigitsRev (natDigitsRevAux fuel n) = n := by
  intro fuel
  induction fuel with
  | zero =>
    intro n h
    interval_cases n
    rfl
  | succ f ih =>
    intro n h
    cases n with
    | zero => rfl
    | succ m =>
      have hdiv : (m + 1) / 10 < m + 1 := Nat.div_lt_self (Nat.succ_pos m) (by norm_num)
      rw [natDigitsRevAux, ofDigitsRev, ih _ (by omega),
        digVal_digitChar10 _ (Nat.mod_lt _ (by norm_num))]
      omega

/-- Decodes the decimal rendering of a natural number. -/
def decodeNatString (s : String) : Nat := ofDigitsRev s.data.reverse

/-- The decimal rendering round-trips through decoding. -/
theorem decode_jsNatToString (n : Nat) : decodeNatString (jsNatToString n) = n := by
  by_cases h : n = 0
  · subst h; rfl
  · rw [jsNatToString, if_neg h, decodeNatString]
    show ofDigitsRev (natDigitsRev n).reverse.reverse = n
    rw [List.reverse_reverse]
    exact ofDigitsRev_natDigitsRevAux n n le_rfl

/-- The decimal rendering of naturals is injective. -/
theorem jsNatToString_inj {m n : Nat} (h : jsNatToString m = jsNatToString n) : m = n := by
  have := congrArg decodeNatString h
  rwa [decode_jsNatToString, decode_jsNatToString] at this

/-- Every character the digits renderer emits is a decimal digit. -/
theorem mem_natDigitsRevAux_isDigit :
    ∀ fuel n c, c ∈ natDigitsRevAux fuel n → c.isDigit = true := by
  intro fuel
  induction fuel with
  | zero =>
    intro n c h
    cases n <;> simp [natDigitsRevAux] at h
  | succ f ih =>
    intro n c h
    cases n with
    | zero => simp [natDigitsRevAux] at h
    | succ m =>
      rw [natDigitsRevAux] at h
      rcases List.mem_cons.mp h with h | h
      · subst h; exact isDigit_digitChar10 _
      · exact ih _ _ h

/-- The decimal rendering of a natural number contains no dash. -/
theorem no_dash_jsNatToString (n : Nat) : '-' ∉ (jsNatToString n).data := by
  by_cases h : n = 0
  · subst h; decide
  · rw [jsNatToString, if_neg h]
    intro hm
    have hd : '-' ∈ natDigitsRev n := List.mem_reverse.mp hm
    have := mem_natDigitsRevAux_isDigit n n '-' hd
    simp at this

/-- The possible ids of a message created at clock value `t`: the user
id, the bot id, or the error id derived from `Date.now()`. -/
def idFrom (t : Nat) (i : String) : Prop :=
  i = jsNatToString t ∨ i = jsNatToString t ++ "-bot" ∨ i = jsNatToString t ++ "-error"

/-- A bare decimal id never equals a dash-suffixed id. -/
theorem ne_plain_suffix (t u : Nat) (suf : String) (hs : '-' ∈ suf.data) :
    jsNatToString t ≠ jsNatToString u ++ suf := by
  intro h
  apply no_dash_jsNatToString t
  rw [h, String.data_append]
  exact List.mem_append_right _ hs

/-- Bot ids and error ids never coincide, at any pair of clock values. -/
theorem ne_bot_error (t u : Nat) :
    jsNatToString t ++ "-bot" ≠ jsNatToString u ++ "-error" := by
  intro h
  have hd := congrArg String.data h
  rw [String.data_append, String.data_append] at hd
  have hr := congrArg List.reverse hd
  rw [List.reverse_append, List.reverse_append] at hr
  have hbot : ("-bot".data).reverse = ['t', 'o', 'b', '-'] := rfl
  have herr : ("-error".data).reverse = ['r', 'o', 'r', 'r', 'e', '-'] := rfl
  rw [hbot, herr] at hr
  simp at hr

/-- Ids with the same dash suffix agree only at equal clock values. -/
theorem suffix_id_inj {t u : Nat} (suf : String)
    (h : jsNatToString t ++ suf = jsNatToString u ++ suf) : t = u := by
  have hd := congrArg String.data h
  rw [String.data_append, String.data_append] at hd
  exact jsNatToString_inj (String.ext (List.append_cancel_right hd))

/-- Messages created at distinct clock values have distinct ids,
whatever their kinds. -/
theorem idFrom_ne {t u : Nat} {i j : String} (ht : idFrom t i) (hu : idFrom u j)
    (hne : t ≠ u) : i ≠ j := by
  rcases ht with h1 | h1 | h1 <;> rcases hu with h2 | h2 | h2 <;> subst h1 <;> subst h2
  · exact fun h => hne (jsNatToString_inj h)
  · exact ne_plain_suffix t u "-bot" (by decide)
  · exact ne_plain_suffix t u "-error" (by decide)
  · exact fun h => ne_plain_suffix u t "-bot" (by decide) h.symm
  · exact fun h => hne (suffix_id_inj "-bot" h)
  · exact ne_bot_error t u
  · exact fun h => ne_plain_suffix u t "-error" (by decide) h.symm
  · exact fun h => ne_bot_error u t h.symm
  · exact fun h => hne (suffix_id_inj "-error" h)

/-- Session invariant at clock bound `B`: every message was created at a
clock value below `B` and carries an id derived from that value, and
creation clock values strictly increase along the list. -/
def SessionInv (B : Nat) (s : ChatState) : Prop :=
  (∀ m ∈ s.messages, m.timestamp < B ∧ idFrom m.timestamp m.id) ∧
  List.Pairwise (fun a b : Message => a.timestamp < b.timestamp) s.messages

/-- The invariant is monotone in the clock bound. -/
theorem sessionInv_mono {B B' : Nat} {s : ChatState} (h : B ≤ B')
    (hi : SessionInv B s) : SessionInv B' s :=
  ⟨fun m hm => ⟨lt_of_lt_of_le (hi.1 m hm).1 h, (hi.1 m hm).2⟩, hi.2⟩

/-- The invariant only depends on the message list. -/
theorem sessionInv_congr {B : Nat} {s s' : ChatState}
    (h : s'.messages = s.messages) (hi : SessionInv B s) : SessionInv B s' := by
  constructor
  · intro m hm
    exact hi.1 m (h ▸ hm)
  · rw [h]
    exact hi.2

/-- Appending one fresh message created at `now ≥ B` preserves the
invariant with the bound advanced past `now`. -/
theorem sessionInv_push {B now : Nat} {s s' : ChatState} (msg : Message)
    (hi : SessionInv B s) (hB : B ≤ now) (ht : msg.timestamp = now)
    (hid : idFrom now msg.id) (hm : s'.messages = s.messages ++ [msg]) :
    SessionInv (now + 1) s' := by
  constructor
  · intro m hmem
    rw [hm] at hmem
    rcases List.mem_append.mp hmem with h | h
    · have := (hi.1 m h).1
      exact ⟨by omega, (hi.1 m h).2⟩
    · have heq : m = msg := by simpa using h
      subst heq
      exact ⟨by omega, by rw [ht]; exact hid⟩
  · rw [hm]
    refine List.pairwise_append.mpr ⟨hi.2, List.pairwise_singleton _ _, ?_⟩
    intro a ha b hb
    have hb' : b = msg := by simpa using hb
    subst hb'
    rw [ht]
    have := (hi.1 a ha).1
    omega

/-- Running a trace whose clock readings are strictly increasing and at
least the current bound preserves the invariant at some bound. -/
theorem run_sessionInv : ∀ (evs : List Event) (B : Nat) (s : ChatState),
    SessionInv B s → List.Pairwise (· < ·) (traceTimes evs) →
    (∀ t ∈ traceTimes evs, B ≤ t) → ∃ B', SessionInv B' (run s evs) := by
  intro evs
  induction evs with
  | nil =>
    intro B s h _ _
    exact ⟨B, h⟩
  | cons e tl ih =>
    intro B s h hp hb
    show ∃ B', SessionInv B' (run (step s e) tl)
    cases e with
    | editDraft v =>
      simp only [traceTimes, eventTime, List.nil_append] at hp hb
      exact ih B _ (sessionInv_congr rfl h) hp hb
    | setTemperature v =>
      simp only [traceTimes, eventTime, List.nil_append] at hp hb
      exact ih B _ (sessionInv_congr rfl h) hp hb
    | editTopP v =>
      simp only [traceTimes, eventTime, List.nil_append] at hp hb
      exact ih B _ (sessionInv_congr rfl h) hp hb
    | editTopK v =>
      simp only [traceTimes, eventTime, List.nil_append] at hp hb
      exact ih B _ (sessionInv_congr rfl h) hp hb
    | setEffort v =>
      simp only [traceTimes, eventTime, List.nil_append] at hp hb
      exact ih B _ (sessionInv_congr rfl h) hp hb
    | clear =>
      simp only [traceTimes, eventTime, List.nil_append] at hp hb
      refine ih B _ ⟨?_, ?_⟩ hp hb
      · intro m hm
        simp [step, clearChat] at hm
      · simp [step, clearChat]
    | submit now =>
      simp only [traceTimes, eventTime, List.singleton_append] at hp hb
      have hBnow : B ≤ now := hb now (List.mem_cons_self _ _)
      have hp' := List.pairwise_cons.mp hp
      refine ih (now + 1) _ ?_ hp'.2 (fun x hx => by have := hp'.1 x hx; omega)
      show SessionInv (now + 1) (handleSubmit now s).1
      unfold handleSubmit
      split
      · exact sessionInv_mono (by omega) h
      · exact sessionInv_push ⟨jsNatToString now, s.inputValue, true, now⟩
          h hBnow rfl (Or.inl rfl) rfl
    | respSuccess now m c =>
      simp only [traceTimes, eventTime, List.singleton_append] at hp hb
      have hBnow : B ≤ now := hb now (List.mem_cons_self _ _)
      have hp' := List.pairwise_cons.mp hp
      refine ih (now + 1) _ ?_ hp'.2 (fun x hx => by have := hp'.1 x hx; omega)
      show SessionInv (now + 1)
        (if s.isPending then onSuccess now (sendMessageText m c) s else s)
      split
      · exact sessionInv_push
          ⟨jsNatToString now ++ "-bot", sendMessageText m c, false, now⟩
          h hBnow rfl (Or.inr (Or.inl rfl)) rfl
      · exact sessionInv_mono (by omega) h
    | respError now emsg =>
      simp only [traceTimes, eventTime, List.singleton_append] at hp hb
      have hBnow : B ≤ now := hb now (List.mem_cons_self _ _)
      have hp' := List.pairwise_cons.mp hp
      refine ih (now + 1) _ ?_ hp'.2 (fun x hx => by have := hp'.1 x hx; omega)
      show SessionInv (now + 1)
        (if s.isPending then onError now emsg s else s)
      split
      · exact sessionInv_push
          ⟨jsNatToString now ++ "-error",
            "❌ Error: " ++ emsg.getD "desconocido", false, now⟩
          h hBnow rfl (Or.inr (Or.inr rfl)) rfl
      · exact sessionInv_mono (by omega) h

/-- Mutual exclusion of the two samplers in a parameter set. -/
def mutexOk (p : Params) : Prop := p.top_p = none ∨ p.top_k = none

/-- Submission never changes the parameter set. -/
theorem handleSubmit_params (now : Nat) (s : ChatState) :
    ((handleSubmit now s).1).params = s.params := by
  unfold handleSubmit
  split <;> rfl

/-- Every transition preserves sampler mutual exclusion. -/
theorem step_mutex {s : ChatState} {e : Event} (h : mutexOk s.params) :
    mutexOk (step s e).params := by
  cases e with
  | editTopP v =>
    show mutexOk (setTopP v s.params)
    by_cases hv : v = ""
    · left
      simp [setTopP, hv]
    · right
      simp [setTopP, hv]
  | editTopK v =>
    show mutexOk (setTopK v s.params)
    by_cases hv : v = ""
    · right
      simp [setTopK, hv]
    · left
      simp [setTopK, hv]
  | submit now =>
    show mutexOk ((handleSubmit now s).1).params
    rw [handleSubmit_params]
    exact h
  | respSuccess now m c =>
    show mutexOk (if s.isPending then onSuccess now (sendMessageText m c) s else s).params
    split <;> exact h
  | respError now emsg =>
    show mutexOk (if s.isPending then onError now emsg s else s).params
    split <;> exact h
  | editDraft v => exact h
  | setTemperature v => exact h
  | setEffort v => exact h
  | clear => exact h

/-- Sampler mutual exclusion is preserved by any trace. -/
theorem run_mutex : ∀ (evs : List Event) (s : ChatState),
    mutexOk s.params → mutexOk (run s evs).params := by
  intro evs
  induction evs with
  | nil =>
    intro s h
    exact h
  | cons e tl ih =>
    intro s h
    exact ih _ (step_mutex h)

/-- C1: whenever both top_p and top_k are non-null, the validator output
contains the mutual-exclusion violation message, regardless of the two
values themselves. -/
theorem C1_mutual_exclusion_always_flagged (p : Params)
    (hp : p.top_p ≠ none) (hk : p.top_k ≠ none) : bothMsg ∈ validateParams p := by
  rw [mem_validateParams]
  refine Or.inr (Or.inr (Or.inr (Or.inl ⟨?_, rfl⟩)))
  simp [bothBad, Option.isSome_iff_ne_none, hp, hk]

/-- Witness for C1 at in-range values top_p = 0.9 and top_k = 5. -/
theorem C1_witness :
    bothMsg ∈ validateParams ⟨.num 1, some (.num (mkRat 9 10)), some (.num 5), "medium"⟩ :=
  C1_mutual_exclusion_always_flagged _ (by simp) (by simp)

/-- C2: every reachable session state keeps at most one of top_p/top_k
non-null; the handlers clear the opposite sampler exactly when storing a
non-null value and leave it unchanged when storing null. -/
theorem C2_sampler_mutual_exclusion :
    (∀ evs : List Event, (run initState evs).params.top_p = none ∨
      (run initState evs).params.top_k = none) ∧
    (∀ (v : String) (p : Params),
      (setTopP v p).top_k = if v = "" then p.top_k else none) ∧
    (∀ (v : String) (p : Params),
      (setTopK v p).top_p = if v = "" then p.top_p else none) ∧
    (∀ (v : String) (p : Params), v ≠ "" →
      (setTopP v p).top_p = some (jsToNumber v)) ∧
    (∀ (v : String) (p : Params), v = "" →
      (setTopP v p).top_p = none ∧ (setTopK v p).top_k = none) := by
  refine ⟨?_, ?_, ?_, ?_, ?_⟩
  · intro evs
    exact run_mutex evs initState (Or.inr rfl)
  · intro v p
    by_cases hv : v = "" <;> simp [setTopP, hv]
  · intro v p
    by_cases hv : v = "" <;> simp [setTopK, hv]
  · intro v p hv
    simp [setTopP, hv]
  · intro v p hv
    simp [setTopP, setTopK, hv]

/-- Witness for C2 at concrete handler inputs. -/
theorem C2_witness :
    ((setTopP "0.5" DEFAULT_PARAMS).top_k =
      if "0.5" = "" then DEFAULT_PARAMS.top_k else none) ∧
    ((setTopP "0.5" DEFAULT_PARAMS).top_p = some (jsToNumber "0.5")) ∧
    ((setTopP "" DEFAULT_PARAMS).top_p = none ∧ (setTopK "" DEFAULT_PARAMS).top_k = none) :=
  ⟨C2_sampler_mutual_exclusion.2.1 "0.5" DEFAULT_PARAMS,
   C2_sampler_mutual_exclusion.2.2.2.1 "0.5" DEFAULT_PARAMS (by decide),
   C2_sampler_mutual_exclusion.2.2.2.2 "" DEFAULT_PARAMS rfl⟩

/-- C3: a submit with a blank draft, an outstanding request, or a
failing validation leaves the state untouched and issues no outbound
call. -/
theorem C3_submit_guard (now : Nat) (s : ChatState)
    (h : jsTrim s.inputValue = "" ∨ s.isPending = true ∨ validateParams s.params ≠ []) :
    handleSubmit now s = (s, none) := by
  have hcond :
      (jsTrim s.inputValue == "" || s.isPending || !(validateParams s.params).isEmpty) = true := by
    rcases h with h | h | h
    · simp [h]
    · simp [h]
    · have hne : (validateParams s.params).isEmpty = false := by
        rcases hl : validateParams s.params with _ | ⟨a, b⟩
        · exact absurd hl h
        · rfl
      simp [hne]
  simp [handleSubmit, hcond]

/-- Witness for C3 on a whitespace-only draft. -/
theorem C3_witness :
    handleSubmit 3
      { messages := [], inputValue := "   ", params := DEFAULT_PARAMS, isPending := false } =
    ({ messages := [], inputValue := "   ", params := DEFAULT_PARAMS, isPending := false },
      none) :=
  C3_submit_guard 3 _ (Or.inl (by decide))

/-- Counterexample to C4 as stated: a present-but-empty message field
does not take precedence; the content field is used instead. -/
theorem C4_counterexample :
    ¬ (∀ (m : String) (c : Option String), sendMessageText (some m) c = m) := by
  intro h
  have hx := h "" (some "hi")
  simp [sendMessageText] at hx

/-- C4 (amended): the appended assistant message carries the extracted
text; the message field takes precedence exactly when it is a non-empty
string, an empty or absent message falls back to a non-empty content
field, and the fixed placeholder is used when both are empty or
absent. -/
theorem C4_amended_response_text :
    (∀ (s : ChatState) (now : Nat) (m c : Option String), s.isPending = true →
      (step s (.respSuccess now m c)).messages = s.messages ++
        [{ id := jsNatToString now ++ "-bot", content := sendMessageText m c,
           isUser := false, timestamp := now }]) ∧
    (∀ (t : String) (c : Option String), t ≠ "" → sendMessageText (some t) c = t) ∧
    (∀ (m : Option String) (t : String), (m = none ∨ m = some "") → t ≠ "" →
      sendMessageText m (some t) = t) ∧
    (∀ (m c : Option String), (m = none ∨ m = some "") → (c = none ∨ c = some "") →
      sendMessageText m c = "Sin respuesta") := by
  refine ⟨?_, ?_, ?_, ?_⟩
  · intro s now m c hp
    simp [step, hp, onSuccess]
  · intro t c ht
    simp [sendMessageText, ht]
  · intro m t hm ht
    rcases hm with hm | hm <;> subst hm <;> simp [sendMessageText, ht]
  · intro m c hm hc
    rcases hm with hm | hm <;> rcases hc with hc | hc <;> subst hm <;> subst hc <;>
      simp [sendMessageText]

/-- Witness for the amended C4 at concrete responses. -/
theorem C4_witness :
    ((step { messages := [], inputValue := "", params := DEFAULT_PARAMS, isPending := true }
        (.respSuccess 7 (some "ok") none)).messages = [] ++
      [{ id := jsNatToString 7 ++ "-bot", content := sendMessageText (some "ok") none,
         isUser := false, timestamp := 7 }]) ∧
    (sendMessageText (some "hola") (some "alt") = "hola") ∧
    (sendMessageText (some "") (some "alt") = "alt") ∧
    (sendMessageText none none = "Sin respuesta") :=
  ⟨C4_amended_response_text.1
      { messages := [], inputValue := "", params := DEFAULT_PARAMS, isPending := true }
      7 (some "ok") none rfl,
   C4_amended_response_text.2.1 "hola" (some "alt") (by decide),
   C4_amended_response_text.2.2.1 (some "") "alt" (Or.inr rfl) (by decide),
   C4_amended_response_text.2.2.2 none none (Or.inl rfl) (Or.inl rfl)⟩

/-- C5: the validator output is the concatenation, in fixed rule order,
of one independent optional singleton per rule; it is a pure function,
so every rule is evaluated on every input with no short-circuiting. -/
theorem C5_validator_order (p : Params) : validateParams p =
    (if tempBad p then [tempMsg] else []) ++
    (if topPBad p then [topPMsg] else []) ++
    (if topKBad p then [topKMsg] else []) ++
    (if bothBad p then [bothMsg] else []) ++
    (if effortBad p then [effortMsg] else []) :=
  validateParams_eq p

/-- C6: the temperature violation message appears exactly when the
temperature is not a finite number in [0, 2]; NaN and both infinities
are flagged, every finite value in range is not. -/
theorem C6_temperature_rule (p : Params) :
    tempMsg ∈ validateParams p ↔
      ¬ ∃ q : ℚ, p.temperature = JSNum.num q ∧ 0 ≤ q ∧ q ≤ 2 := by
  have hiff : tempMsg ∈ validateParams p ↔ tempBad p = true := by
    rw [mem_validateParams]
    constructor
    · rintro (⟨hc, _⟩ | ⟨_, h⟩ | ⟨_, h⟩ | ⟨_, h⟩ | ⟨_, h⟩)
      · exact hc
      all_goals exact absurd h (by decide)
    · intro hc
      exact Or.inl ⟨hc, rfl⟩
  rw [hiff]
  rcases htemp : p.temperature with _ | b | q
  · simp [tempBad, htemp, jsIsNaN]
  · cases b <;> simp [tempBad, htemp, jsIsNaN, jsLt]
  · simp only [tempBad, htemp, jsIsNaN, jsLt, Bool.false_or, Bool.or_eq_true,
      decide_eq_true_eq, JSNum.num.injEq]
    constructor
    · rintro (h | h) ⟨q', hq', h0, h2⟩ <;> subst hq' <;> linarith
    · intro h
      by_contra hno
      push_neg at hno
      exact h ⟨q, rfl, by linarith [hno.1], by linarith [hno.2]⟩

/-- C7: a value of 0 is a set, in-range value for each sampler: it
produces no range violation. -/
theorem C7_zero_is_valid :
    (∀ p : Params, p.top_p = some (JSNum.num 0) → p.top_k = none →
      topPMsg ∉ validateParams p) ∧
    (∀ p : Params, p.top_k = some (JSNum.num 0) → p.top_p = none →
      topKMsg ∉ validateParams p) := by
  constructor
  · intro p hp hk hmem
    rw [mem_validateParams] at hmem
    rcases hmem with ⟨_, h⟩ | ⟨hc, _⟩ | ⟨_, h⟩ | ⟨_, h⟩ | ⟨_, h⟩
    · exact absurd h (by decide)
    · simp [topPBad, hp, jsIsNaN, jsLt] at hc
      norm_num at hc
    · exact absurd h (by decide)
    · exact absurd h (by decide)
    · exact absurd h (by decide)
  · intro p hk hp hmem
    rw [mem_validateParams] at hmem
    rcases hmem with ⟨_, h⟩ | ⟨_, h⟩ | ⟨hc, _⟩ | ⟨_, h⟩ | ⟨_, h⟩
    · exact absurd h (by decide)
    · exact absurd h (by decide)
    · simp [topKBad, hk, jsIsNaN, jsLt, jsIsInteger] at hc
      norm_num at hc
    · exact absurd h (by decide)
    · exact absurd h (by decide)

/-- Witness for C7 at temperature 1, effort medium. -/
theorem C7_witness :
    topPMsg ∉ validateParams ⟨.num 1, some (.num 0), none, "medium"⟩ ∧
    topKMsg ∉ validateParams ⟨.num 1, none, some (.num 0), "medium"⟩ :=
  ⟨C7_zero_is_valid.1 _ rfl rfl, C7_zero_is_valid.2 _ rfl rfl⟩

/-- Counterexample to C8 as stated: two submits observing the same
`Date.now()` millisecond value (with a completed round trip in between)
produce two user messages with the same id "5". -/
theorem C8_counterexample :
    ¬ List.Pairwise (fun a b : String => a ≠ b)
      ((run initState [.editDraft "a", .submit 5, .respSuccess 5 (some "r") none,
        .editDraft "b", .submit 5]).messages.map Message.id) := by decide

/-- C8 (amended): whenever the clock values observed by the trace's
message-creating events strictly increase, all message ids in the
session are pairwise distinct and creation times are monotone along the
list. -/
theorem C8_amended_unique_ids (evs : List Event)
    (h : List.Pairwise (· < ·) (traceTimes evs)) :
    List.Pairwise (fun a b : String => a ≠ b)
      ((run initState evs).messages.map Message.id) ∧
    List.Pairwise (· < ·) ((run initState evs).messages.map Message.timestamp) := by
  obtain ⟨B', hInv⟩ := run_sessionInv evs 0 initState
    ⟨(fun m hm => nomatch hm), List.Pairwise.nil⟩ h (fun t _ => Nat.zero_le t)
  constructor
  · rw [List.pairwise_map]
    refine hInv.2.imp_of_mem ?_
    intro a b ha hb hab
    exact idFrom_ne (hInv.1 a ha).2 (hInv.1 b hb).2 (Nat.ne_of_lt hab)
  · rw [List.pairwise_map]
    exact hInv.2

/-- Witness for the amended C8 on a strictly increasing trace. -/
theorem C8_witness :
    List.Pairwise (fun a b : String => a ≠ b)
      ((run initState [.editDraft "hola", .submit 1,
        .respSuccess 2 (some "ok") none]).messages.map Message.id) ∧
    List.Pairwise (· < ·)
      ((run initState [.editDraft "hola", .submit 1,
        .respSuccess 2 (some "ok") none]).messages.map Message.timestamp) :=
  C8_amended_unique_ids _ (by decide)

/-- C9: the clear action empties the message list and changes nothing
else, in any state. -/
theorem C9_clear_frame (s : ChatState) :
    (clearChat s).messages = [] ∧ (clearChat s).inputValue = s.inputValue ∧
    (clearChat s).params = s.params ∧ (clearChat s).isPending = s.isPending :=
  ⟨rfl, rfl, rfl, rfl⟩

/-- C10: for a non-empty field text that parses to a finite number, the
top-k handler stores the truncation, which is integral, so the top-k
message can only ever be caused by the range checks, never by the
integrality check. -/
theorem C10_topk_integrality (v : String) (p : Params) (q : ℚ)
    (hv : v ≠ "") (hq : jsToNumber v = JSNum.num q) :
    (setTopK v p).top_k = some (jsTrunc (JSNum.num q)) ∧
    jsIsInteger (jsTrunc (JSNum.num q)) = true ∧
    (topKMsg ∈ validateParams (setTopK v p) →
      (jsLt (jsTrunc (JSNum.num q)) (JSNum.num 0) ||
       jsLt (JSNum.num 20) (jsTrunc (JSNum.num q))) = true) := by
  have hstore : (setTopK v p).top_k = some (jsTrunc (JSNum.num q)) := by
    simp [setTopK, hv, hq]
  have hint : jsIsInteger (jsTrunc (JSNum.num q)) = true := by
    simp only [jsTrunc, jsIsInteger]
    split <;> simp [Rat.den_intCast]
  refine ⟨hstore, hint, ?_⟩
  intro hmem
  rw [mem_validateParams] at hmem
  rcases hmem with ⟨_, h⟩ | ⟨_, h⟩ | ⟨hc, _⟩ | ⟨_, h⟩ | ⟨_, h⟩
  · exact absurd h (by decide)
  · exact absurd h (by decide)
  · have hnan : jsIsNaN (jsTrunc (JSNum.num q)) = false := by
      simp [jsTrunc, jsIsNaN]
    simp only [topKBad, hstore, hnan, hint] at hc
    cases ha : jsLt (jsTrunc (JSNum.num q)) (JSNum.num 0) <;>
      cases hb : jsLt (JSNum.num 20) (jsTrunc (JSNum.num q)) <;> simp_all
  · exact absurd h (by decide)
  · exact absurd h (by decide)

/-- Witness for C10 at the field text "5.5", stored as 5. -/
theorem C10_witness :
    (setTopK "5.5" DEFAULT_PARAMS).top_k = some (jsTrunc (JSNum.num (mkRat 11 2))) ∧
    jsIsInteger (jsTrunc (JSNum.num (mkRat 11 2))) = true ∧
    (topKMsg ∈ validateParams (setTopK "5.5" DEFAULT_PARAMS) →
      (jsLt (jsTrunc (JSNum.num (mkRat 11 2))) (JSNum.num 0) ||
       jsLt (JSNum.num 20) (jsTrunc (JSNum.num (mkRat 11 2)))) = true) :=
  C10_topk_integrality "5.5" DEFAULT_PARAMS (mkRat 11 2) (by decide) (by decide)
